import Mathlib

/-!
Verification of the `serde_sated` derive macro (`src/lib.rs`).

The crate is a proc-macro: given an adjacently tagged enum declaration with
one `#[serde(untagged)]` fallback variant, it synthesizes a custom
`Deserialize` impl that dispatches on the tag string and falls back to the
untagged variant only when no typed variant's name matches the tag.

The development has three layers:

1. a model of the `syn` input the macro consumes (`DeriveInput`, variants,
   fields, serde attribute metas) and of `serde_json::Value` (`Json`);
2. a direct embedding of the macro's build-time functions
   (`path_to_ident`, `has_serde_untagged_attribute`,
   `get_tag_and_content_attributes`, `generate_if_branch`,
   `generate_else_branch`, `generate_if_else_tree`, `derive_enum`),
   with Rust `panic!` rendered as `Except.error` of the panic message —
   including the `.unwrap()` panics on `parse_nested_meta` (`syn` rejects
   a name-value meta whose value the closure did not consume, so e.g. a
   variant-level `rename = "..."` aborts the build) — and the per-variant
   extraction loop of `derive_enum` factored into
   `variant_inner_type_loop` / `processVariants`;
3. the runtime semantics of the generated `Deserialize` impl
   (`run_if_else_tree`, `run_deserialize`), parameterized by the
   payload decoders the generated code delegates to
   (`{content_type}::deserialize`, whose errors `map_err` propagates
   verbatim as custom errors).
-/

/-- Model of `serde_json::Value`: a generic JSON document node.  Numbers are
modelled as `Nat` (sufficient for the claims, which never depend on numeric
representation); objects are association lists in insertion order. -/
inductive Json where
  | null
  | bool (b : Bool)
  | num (n : Nat)
  | str (s : String)
  | arr (items : List Json)
  | obj (fields : List (String × Json))

/-- Key lookup in an object's field list, first match wins (the map backing
`serde_json::Map` keyed by string equality). -/
def lookupField : List (String × Json) → String → Option Json
  | [], _ => none
  | (k, v) :: rest, key => if k = key then some v else lookupField rest key

/-- Model of `serde_json::Value::get(key)`: `Some` only when the value is an
object containing the key; on any non-object value it returns `None`. -/
def Json.get : Json → String → Option Json
  | .obj fields, key => lookupField fields key
  | _, _ => none

/-- Model of `serde_json::Value::as_str()`: `Some` exactly on strings. -/
def Json.as_str : Json → Option String
  | .str s => some s
  | _ => none

/-- The `EnumVariant` struct of `src/lib.rs` (lines 9-13): the name of a
variant together with the identifier of its payload type. -/
structure EnumVariant where
  ident : String
  content_type : String

/-- A serde meta item as seen by the macro's `parse_nested_meta` closures:
the path-only metas `untagged` and `other` (any other bare path), and the
name-value metas `tag = "..."`, `content = "..."`, `rename = "..."`,
`deserialize_with = "..."`. -/
inductive SerdeMeta where
  | untagged
  | tag (value : String)
  | content (value : String)
  | rename (value : String)
  | deserializeWith (value : String)
  | other

/-- Whether a meta item is a name-value meta (carries `= "..."`).  When a
`parse_nested_meta` closure returns without consuming such a meta's value,
`syn` is left facing the `=` token where it expects `,` or the end of the
attribute, so the parse fails — and the macro's `.unwrap()` on that result
panics at build time. -/
def SerdeMeta.hasValue : SerdeMeta → Bool
  | .tag _ => true
  | .content _ => true
  | .rename _ => true
  | .deserializeWith _ => true
  | .untagged => false
  | .other => false

/-- Message of the build-time abort when a `parse_nested_meta` closure
leaves a meta value unconsumed (`syn`'s parse error, surfaced by the
macro's `.unwrap()` at `src/lib.rs` lines 40 and 70). -/
def unconsumed_meta_error : String :=
  "unexpected token in nested attribute, expected `,`"

/-- A `syn::Attribute` as far as the macro inspects it: whether its path is
the single identifier `serde`, and the parsed nested meta items. -/
structure SynAttribute where
  isSerde : Bool
  metas : List SerdeMeta

/-- A `syn::Type` as far as the macro inspects it: either a path type (its
segment identifiers, in order) or any other type form. -/
inductive SynType where
  | path (segments : List String)
  | other

/-- A field of an enum variant: the macro only reads its type. -/
structure SynField where
  ty : SynType

/-- A `syn::Variant`: name, attributes, and fields. -/
structure SynVariant where
  ident : String
  attrs : List SynAttribute
  fields : List SynField

/-- The `syn::Data` of a `DeriveInput`. -/
inductive SynData where
  | structData
  | unionData
  | enumData (variants : List SynVariant)

/-- A `syn::DeriveInput`: the declaration the derive macro is attached to. -/
structure DeriveInput where
  ident : String
  attrs : List SynAttribute
  data : SynData

/-- Rust's `Vec::join(sep)` on strings. -/
def join_sep (sep : String) : List String → String
  | [] => ""
  | [x] => x
  | x :: xs => x ++ sep ++ join_sep sep xs

/-- Embedding of `path_to_ident` (`src/lib.rs` lines 15-25): a single-segment
path (the `get_ident` case) yields that identifier; otherwise the segment
identifiers joined with `::`. -/
def path_to_ident (segments : List String) : String :=
  match segments with
  | [ident] => ident
  | _ => join_sep "::" segments

/-- Embedding of `has_serde_untagged_attribute` (`src/lib.rs` lines 27-48).
For each `serde` attribute in turn, the macro runs `parse_nested_meta` with
a closure that only tests for the bare path `untagged` and consumes no meta
values, then calls `.unwrap()` (line 40): an attribute carrying any
name-value meta therefore panics at build time; otherwise, if the
attribute contained `untagged`, the function returns `true` early, else it
moves on to the remaining attributes and finally returns `false`. -/
def has_serde_untagged_attribute : List SynAttribute → Except String Bool
  | [] => .ok false
  | attr :: rest =>
    if attr.isSerde then
      if attr.metas.any SerdeMeta.hasValue then
        .error unconsumed_meta_error
      else if attr.metas.any (fun m =>
          match m with
          | .untagged => true
          | _ => false) then
        .ok true
      else
        has_serde_untagged_attribute rest
    else
      has_serde_untagged_attribute rest

/-- One `parse_nested_meta` pass of `get_tag_and_content_attributes`: the
closure consumes the values of `tag` and `content` metas (each assignment
overwriting its slot) and skips bare-path metas, but leaves the value of
any other name-value meta (`rename`, `deserialize_with`) unconsumed — on
which the subsequent `.unwrap()` (line 70) panics. -/
def scan_tag_content_metas :
    List SerdeMeta → Option String × Option String →
    Except String (Option String × Option String)
  | [], st => .ok st
  | m :: rest, st =>
    match m with
    | .tag v => scan_tag_content_metas rest (some v, st.2)
    | .content v => scan_tag_content_metas rest (st.1, some v)
    | .untagged => scan_tag_content_metas rest st
    | .other => scan_tag_content_metas rest st
    | .rename _ => .error unconsumed_meta_error
    | .deserializeWith _ => .error unconsumed_meta_error

/-- The attribute loop of `get_tag_and_content_attributes`: every `serde`
attribute is scanned in turn, threading the tag/content slots; a scan
panic aborts immediately. -/
def get_tag_and_content_attributes_loop :
    List SynAttribute → Option String × Option String →
    Except String (Option String × Option String)
  | [], st => .ok st
  | attr :: rest, st =>
    if attr.isSerde then
      match scan_tag_content_metas attr.metas st with
      | .error e => .error e
      | .ok st2 => get_tag_and_content_attributes_loop rest st2
    else
      get_tag_and_content_attributes_loop rest st

/-- Embedding of `get_tag_and_content_attributes` (`src/lib.rs` lines 50-79):
scans every `serde` attribute for `tag = "..."` and `content = "..."`; the
`panic!` when either is missing becomes `Except.error` of the panic
message, and the `.unwrap()` panic on an unconsumed meta value becomes
`Except.error unconsumed_meta_error`. -/
def get_tag_and_content_attributes (attrs : List SynAttribute) :
    Except String (String × String) :=
  match get_tag_and_content_attributes_loop attrs (none, none) with
  | .error e => .error e
  | .ok (some tag, some content) => Except.ok (tag, content)
  | .ok _ => Except.error "Tag and content attributes must be set, ex. #[serde(tag = \"resourceType\", content = \"resource\")]"

/-- Embedding of `generate_if_branch` (`src/lib.rs` lines 81-92): the text of
one `if` arm of the generated dispatcher, testing the tag against the
variant's name and delegating to `{content_type}::deserialize`. -/
def generate_if_branch (enum_name : String) (variant : EnumVariant) : String :=
  "\n        if resource_type == \"" ++ variant.ident ++
    "\" \x7b\n            let resource = " ++ variant.content_type ++
    "::deserialize(resource.to_owned())\n                .map_err(|e| serde::de::Error::custom(e))?;\n            Ok(" ++
    enum_name ++ "::" ++ variant.ident ++ "(resource))\n        \x7d\n"

/-- Embedding of `generate_else_branch` (`src/lib.rs` lines 95-103): the text
of the final `else` arm, constructing the untagged variant from the raw
content node. -/
def generate_else_branch (enum_name : String) (variant : EnumVariant) : String :=
  "       else \x7b\n            Ok(" ++ enum_name ++ "::" ++ variant.ident ++
    "(resource.to_owned()))\n        \x7d\n    "

/-- Embedding of `generate_if_else_tree` (`src/lib.rs` lines 105-117): all
typed-variant arms joined with `else `, followed by the fallback arm. -/
def generate_if_else_tree (enum_name : String) (variants : List EnumVariant)
    (untagged_variant : EnumVariant) : String :=
  let if_tree := join_sep "else " (variants.map (generate_if_branch enum_name))
  let else_branch := generate_else_branch enum_name untagged_variant
  if_tree ++ " " ++ else_branch

/-- The inner field loop of `derive_enum` (`src/lib.rs` lines 214-220): the
mutable `variant_inner_type` is overwritten by each path-typed field and
non-path field types are skipped with `continue`. -/
def variant_inner_type_loop : Option String → List SynField → Option String
  | acc, [] => acc
  | acc, f :: rest =>
    match f.ty with
    | .path segments => variant_inner_type_loop (some (path_to_ident segments)) rest
    | .other => variant_inner_type_loop acc rest

/-- The value of `variant_inner_type` after the field loop of `derive_enum`,
starting from `None`. -/
def variant_inner_type (fields : List SynField) : Option String :=
  variant_inner_type_loop none fields

/-- The variant loop of `derive_enum` (`src/lib.rs` lines 208-237), with the
mutable `variants` vector and `untagged_variant` option as explicit state.
Per variant, `is_untagged` is computed first (line 212) — which itself
panics on an attribute with an unconsumed meta value — then the field loop
runs, and a variant with no resolvable inner type panics; otherwise the
variant is pushed to `variants` or, if marked untagged, overwrites
`untagged_variant`. -/
def processVariants :
    List SynVariant → List EnumVariant → Option EnumVariant →
    Except String (List EnumVariant × Option EnumVariant)
  | [], variants, untagged_variant => Except.ok (variants, untagged_variant)
  | v :: rest, variants, untagged_variant =>
    match has_serde_untagged_attribute v.attrs with
    | .error e => .error e
    | .ok is_untagged =>
      match variant_inner_type v.fields with
      | some value =>
        if is_untagged then
          processVariants rest variants (some ⟨v.ident, value⟩)
        else
          processVariants rest (variants ++ [⟨v.ident, value⟩]) untagged_variant
      | none => Except.error ("Unable to resolve inner type of " ++ v.ident)

/-- The output format string of `derive_enum` (`src/lib.rs` lines 244-266):
the full text of the generated `Deserialize` impl. -/
def output_template (enum_name tag_attribute content_attribute if_else_tree : String) :
    String :=
  "\nimpl<\x27de> serde::Deserialize<\x27de> for " ++ enum_name ++
    " \x7b\n    fn deserialize<D>(deserializer: D) -> Result<Self, D::Error>\n    where\n        D: serde::Deserializer<\x27de>,\n    \x7b\n        let value = serde_json::Value::deserialize(deserializer)?;\n        \n        let resource_type = value\n            .get(\"" ++
    tag_attribute ++ "\")\n            .ok_or(serde::de::Error::custom(\"missing field `" ++
    tag_attribute ++ "`\"))?\n            .as_str()\n            .ok_or(serde::de::Error::custom(\"`" ++
    tag_attribute ++ "` is not of type `string`\"))?;\n            \n        let resource = value\n            .get(\"" ++
    content_attribute ++ "\")\n            .ok_or(serde::de::Error::custom(\"missing field `" ++
    content_attribute ++ "`\"))?;\n\n        " ++ if_else_tree ++ "\n    \x7d\n\x7d"

/-- Embedding of `derive_enum` (`src/lib.rs` lines 187-269), the macro entry
point: extract tag/content names, reject non-enum inputs and empty variant
lists, run the variant loop, require an untagged variant, and emit the
generated impl text.  Every `panic!` is `Except.error` of its message. -/
def derive_enum (input : DeriveInput) : Except String String :=
  match get_tag_and_content_attributes input.attrs with
  | .error e => .error e
  | .ok (tag_attribute, content_attribute) =>
    match input.data with
    | .structData => .error "Unsupported type `struct`, must be `enum`"
    | .unionData => .error "Unsupported type `union`, must be `enum`"
    | .enumData enum_data =>
      if enum_data.isEmpty then
        .error "Enum variants are empty"
      else
        match processVariants enum_data [] none with
        | .error e => .error e
        | .ok (_, none) =>
          .error "No untagged variant specified, use serde::Deserialize instead"
        | .ok (variants, some untagged_variant) =>
          .ok (output_template input.ident tag_attribute content_attribute
                (generate_if_else_tree input.ident variants untagged_variant))

/-- Result of the generated dispatcher at runtime: either a typed variant
holding its decoded payload, or the fallback (untagged) variant holding the
raw content node. -/
inductive DecodeResult (α : Type) where
  | typed (variantIdent : String) (payload : α)
  | fallback (variantIdent : String) (raw : Json)

/-- Runtime semantics of the if/else chain emitted by
`generate_if_else_tree`: try each typed variant's arm in declaration order;
an arm whose tag test succeeds delegates to that variant's payload decoder
(`dec variant.content_type`), and `map_err(serde::de::Error::custom)`
propagates the decoder's error message verbatim; the trailing `else` arm
constructs the fallback variant from the raw content node. -/
def run_if_else_tree {α : Type} (dec : String → Json → Except String α)
    (variants : List EnumVariant) (untagged_variant : EnumVariant)
    (resource_type : String) (resource : Json) : Except String (DecodeResult α) :=
  match variants with
  | [] => .ok (.fallback untagged_variant.ident resource)
  | v :: rest =>
    if resource_type == v.ident then
      match dec v.content_type resource with
      | .ok payload => .ok (.typed v.ident payload)
      | .error e => .error e
    else
      run_if_else_tree dec rest untagged_variant resource_type resource

/-- Runtime semantics of the generated `deserialize` body (the
`output_template` text): read the tag field (else the missing-field error),
require it to be a string (else the not-a-string error), read the content
field (else the missing-field error), then run the if/else chain. -/
def run_deserialize {α : Type} (dec : String → Json → Except String α)
    (tag_attribute content_attribute : String) (variants : List EnumVariant)
    (untagged_variant : EnumVariant) (value : Json) :
    Except String (DecodeResult α) :=
  match value.get tag_attribute with
  | none => .error ("missing field `" ++ tag_attribute ++ "`")
  | some tagValue =>
    match tagValue.as_str with
    | none => .error ("`" ++ tag_attribute ++ "` is not of type `string`")
    | some resource_type =>
      match value.get content_attribute with
      | none => .error ("missing field `" ++ content_attribute ++ "`")
      | some resource =>
        run_if_else_tree dec variants untagged_variant resource_type resource

/-! Concrete fixtures mirroring the example scenario of the crate's doc
comment and tests (`tests/mod.rs`): tag field `resourceType`, content field
`resource`, typed variants `Number(u64)`, `String(String)`,
`Complex(Complex)`, fallback `Unknown(serde_json::Value)`. -/

/-- Typed variants of the `ResourceStruct` example, in declaration order. -/
def exVariants : List EnumVariant :=
  [⟨"Number", "u64"⟩, ⟨"String", "String"⟩, ⟨"Complex", "Complex"⟩]

/-- Fallback (untagged) variant of the `ResourceStruct` example. -/
def exFallback : EnumVariant := ⟨"Unknown", "serde_json::Value"⟩

/-- Concrete payload decoders for the example's payload types: `u64` accepts
numbers, `String` accepts strings, and `Complex` requires fields `a` and `b`
(failing with serde's missing-field message otherwise). -/
def exampleDecoder : String → Json → Except String Json
  | "u64", .num n => .ok (.num n)
  | "u64", _ => .error "invalid type: expected u64"
  | "String", .str s => .ok (.str s)
  | "String", _ => .error "invalid type: expected string"
  | "Complex", j =>
    match j.get "a" with
    | none => .error "missing field `a`"
    | some _ =>
      match j.get "b" with
      | none => .error "missing field `b`"
      | some _ => .ok j
  | _, j => .ok j

/-- The documented failing record: tag `Complex` but content missing field
`b`. -/
def exInputMissingB : Json :=
  .obj [("resourceType", .str "Complex"), ("resource", .obj [("a", .num 2000)])]

/-- The documented unknown-tag record: tag `NEWRANDOMTYPE`. -/
def exInputNewType : Json :=
  .obj [("unrelated", .num 1234), ("resourceType", .str "NEWRANDOMTYPE"),
        ("resource", .obj [("d", .num 5000)])]

/-- The documented well-formed record for the `Number` variant. -/
def exInputNumber : Json :=
  .obj [("resourceType", .str "Number"), ("resource", .num 2000)]

/-! Helper lemmas about the runtime semantics of the generated if/else
chain. -/

/-- If the tag string first matches variant `vi` and `vi`'s payload decoder
fails with `e`, the chain fails with `e`. -/
theorem run_if_else_tree_match_error {α : Type} (dec : String → Json → Except String α)
    (fb : EnumVariant) (s : String) (c : Json) (e : String) :
    ∀ (vs : List EnumVariant) (vi : EnumVariant),
      vs.find? (fun ev => s == ev.ident) = some vi →
      dec vi.content_type c = Except.error e →
      run_if_else_tree dec vs fb s c = Except.error e := by
  intro vs
  induction vs with
  | nil => intro vi hfind _; simp [List.find?] at hfind
  | cons v rest ih =>
    intro vi hfind hdec
    rw [run_if_else_tree]
    cases h : (s == v.ident) with
    | false =>
      simp only [List.find?_cons, h] at hfind
      simp only [h, Bool.false_eq_true, if_false]
      exact ih vi hfind hdec
    | true =>
      simp only [List.find?_cons, h, Option.some.injEq] at hfind
      subst hfind
      simp only [h, if_true, hdec]

/-- If the tag string first matches variant `vi` and `vi`'s payload decoder
succeeds with `p`, the chain returns the typed variant `vi` holding `p`. -/
theorem run_if_else_tree_match_ok {α : Type} (dec : String → Json → Except String α)
    (fb : EnumVariant) (s : String) (c : Json) (p : α) :
    ∀ (vs : List EnumVariant) (vi : EnumVariant),
      vs.find? (fun ev => s == ev.ident) = some vi →
      dec vi.content_type c = Except.ok p →
      run_if_else_tree dec vs fb s c = Except.ok (.typed vi.ident p) := by
  intro vs
  induction vs with
  | nil => intro vi hfind _; simp [List.find?] at hfind
  | cons v rest ih =>
    intro vi hfind hdec
    rw [run_if_else_tree]
    cases h : (s == v.ident) with
    | false =>
      simp only [List.find?_cons, h] at hfind
      simp only [h, Bool.false_eq_true, if_false]
      exact ih vi hfind hdec
    | true =>
      simp only [List.find?_cons, h, Option.some.injEq] at hfind
      subst hfind
      simp only [h, if_true, hdec]

/-- If the tag string matches no typed variant, the chain returns the
fallback variant holding the raw content node. -/
theorem run_if_else_tree_no_match {α : Type} (dec : String → Json → Except String α)
    (fb : EnumVariant) (s : String) (c : Json) :
    ∀ (vs : List EnumVariant),
      (∀ ev ∈ vs, s ≠ ev.ident) →
      run_if_else_tree dec vs fb s c = Except.ok (.fallback fb.ident c) := by
  intro vs
  induction vs with
  | nil => intro _; rfl
  | cons v rest ih =>
    intro hno
    rw [run_if_else_tree]
    have hv : (s == v.ident) = false := by
      simp only [beq_eq_false_iff_ne, ne_eq]
      exact hno v (List.mem_cons_self v rest)
    simp only [hv, Bool.false_eq_true, if_false]
    exact ih fun ev hev => hno ev (List.mem_cons_of_mem v hev)

/-- C1: for every input record whose tag-field string equals some typed
variant's name (the first such variant in declaration order), if decoding
the content value into that variant's payload type fails, the synthesized
decode function returns that decode error verbatim (so the message mentions
whatever missing/invalid subfield the payload decoder reported) and in
particular never returns the fallback variant. -/
theorem sated_C1 {α : Type} (dec : String → Json → Except String α)
    (tag_attribute content_attribute : String) (vs : List EnumVariant)
    (fb : EnumVariant) (value tagValue c : Json) (s e : String) (vi : EnumVariant)
    (hTag : value.get tag_attribute = some tagValue)
    (hStr : tagValue.as_str = some s)
    (hCont : value.get content_attribute = some c)
    (hFind : vs.find? (fun ev => s == ev.ident) = some vi)
    (hDec : dec vi.content_type c = Except.error e) :
    run_deserialize dec tag_attribute content_attribute vs fb value = Except.error e := by
  simp only [run_deserialize, hTag, hStr, hCont]
  exact run_if_else_tree_match_error dec fb s c e vs vi hFind hDec

/-- Witness for C1 at the documented failing record: tag `Complex`, content
`{"a": 2000}`; the whole decode fails with the payload decoder's
missing-field error rather than returning the fallback variant. -/
theorem sated_C1_witness :
    run_deserialize exampleDecoder "resourceType" "resource" exVariants exFallback
      exInputMissingB = Except.error "missing field `b`" :=
  sated_C1 exampleDecoder "resourceType" "resource" exVariants exFallback
    exInputMissingB (.str "Complex") (.obj [("a", .num 2000)]) "Complex"
    "missing field `b`" ⟨"Complex", "Complex"⟩ rfl rfl rfl rfl rfl

/-- C2: for every input record that has the tag and content fields, with a
string tag that equals no typed variant's name, the synthesized decode
function succeeds and returns the fallback variant holding exactly the raw
content node `c` — the value of the content field, not the whole record. -/
theorem sated_C2 {α : Type} (dec : String → Json → Except String α)
    (tag_attribute content_attribute : String) (vs : List EnumVariant)
    (fb : EnumVariant) (value tagValue c : Json) (s : String)
    (hTag : value.get tag_attribute = some tagValue)
    (hStr : tagValue.as_str = some s)
    (hCont : value.get content_attribute = some c)
    (hNo : ∀ ev ∈ vs, s ≠ ev.ident) :
    run_deserialize dec tag_attribute content_attribute vs fb value =
      Except.ok (.fallback fb.ident c) := by
  simp only [run_deserialize, hTag, hStr, hCont]
  exact run_if_else_tree_no_match dec fb s c vs hNo

/-- Witness for C2 at the documented unknown-tag record: tag
`NEWRANDOMTYPE` matches no typed variant, so decoding returns `Unknown`
holding the raw content node `{"d": 5000}` (not the whole record). -/
theorem sated_C2_witness :
    run_deserialize exampleDecoder "resourceType" "resource" exVariants exFallback
      exInputNewType =
      Except.ok (.fallback "Unknown" (.obj [("d", .num 5000)])) :=
  sated_C2 exampleDecoder "resourceType" "resource" exVariants exFallback
    exInputNewType (.str "NEWRANDOMTYPE") (.obj [("d", .num 5000)]) "NEWRANDOMTYPE"
    rfl rfl rfl (by decide)

/-- C3: for every input record whose tag-field string equals a typed
variant's name and whose content decodes successfully as that variant's
payload type, the synthesized decode function succeeds and returns that
variant holding the decoded payload; the matched variant is the one found
by scanning the typed variants in declaration order, first match winning
(`List.find?`). -/
theorem sated_C3 {α : Type} (dec : String → Json → Except String α)
    (tag_attribute content_attribute : String) (vs : List EnumVariant)
    (fb : EnumVariant) (value tagValue c : Json) (s : String) (p : α) (vi : EnumVariant)
    (hTag : value.get tag_attribute = some tagValue)
    (hStr : tagValue.as_str = some s)
    (hCont : value.get content_attribute = some c)
    (hFind : vs.find? (fun ev => s == ev.ident) = some vi)
    (hDec : dec vi.content_type c = Except.ok p) :
    run_deserialize dec tag_attribute content_attribute vs fb value =
      Except.ok (.typed vi.ident p) := by
  simp only [run_deserialize, hTag, hStr, hCont]
  exact run_if_else_tree_match_ok dec fb s c p vs vi hFind hDec

/-- Witness for C3 at the documented `Number` record: decoding succeeds and
returns the typed `Number` variant holding the decoded payload `2000`. -/
theorem sated_C3_witness :
    run_deserialize exampleDecoder "resourceType" "resource" exVariants exFallback
      exInputNumber = Except.ok (.typed "Number" (.num 2000)) :=
  sated_C3 exampleDecoder "resourceType" "resource" exVariants exFallback
    exInputNumber (.str "Number") (.num 2000) "Number" (.num 2000)
    ⟨"Number", "u64"⟩ rfl rfl rfl rfl rfl

/-- C4-counterexample: the claim says a non-object input fails with a
decode error of a "not an object" class distinct from a missing-field
error.  On the concrete non-object input `"hello"` the generated code fails
with exactly `missing field `resourceType`` — the very same error an object
lacking the tag field produces (second conjunct) — because
`serde_json::Value::get` returns `None` on non-objects; no distinct
"not an object" error class exists. -/
theorem sated_C4_counterexample :
    run_deserialize exampleDecoder "resourceType" "resource" exVariants exFallback
      (Json.str "hello") = Except.error "missing field `resourceType`"
    ∧ run_deserialize exampleDecoder "resourceType" "resource" exVariants exFallback
      (Json.obj [("resource", Json.num 1)]) =
        Except.error "missing field `resourceType`" :=
  ⟨rfl, rfl⟩

/-- C4-amended: for every input document node that is not an object, the
synthesized decode function fails — but with the ordinary
`missing field `tag_field`` error (field lookup on a non-object yields
absent), not with a distinct "not an object" error class. -/
theorem sated_C4_amended {α : Type} (dec : String → Json → Except String α)
    (tag_attribute content_attribute : String) (vs : List EnumVariant)
    (fb : EnumVariant) (value : Json)
    (hNotObj : ∀ fields, value ≠ Json.obj fields) :
    run_deserialize dec tag_attribute content_attribute vs fb value =
      Except.error ("missing field `" ++ tag_attribute ++ "`") := by
  have hget : value.get tag_attribute = none := by
    cases value with
    | obj fields => exact absurd rfl (hNotObj fields)
    | _ => rfl
  simp only [run_deserialize, hget]

/-- Witness for the amended C4 at the non-object input `"hello"`. -/
theorem sated_C4_amended_witness :
    run_deserialize exampleDecoder "resourceType" "resource" exVariants exFallback
      (Json.str "hello") = Except.error "missing field `resourceType`" :=
  sated_C4_amended exampleDecoder "resourceType" "resource" exVariants exFallback
    (Json.str "hello") (fun _ h => Json.noConfusion h)

/-- C7: for every input object, the synthesized decode function checks in
this order and fails with an error naming the field: a missing tag field
yields `missing field `tag_field``; a present but non-string tag field
yields ``tag_field` is not of type `string`` (regardless of whether the
content field is present, since this check precedes the content lookup);
a missing content field (with a well-formed tag) yields
`missing field `content_field``. -/
theorem sated_C7 {α : Type} (dec : String → Json → Except String α)
    (tag_attribute content_attribute : String) (vs : List EnumVariant)
    (fb : EnumVariant) :
    (∀ (m : List (String × Json)),
      lookupField m tag_attribute = none →
      run_deserialize dec tag_attribute content_attribute vs fb (Json.obj m) =
        Except.error ("missing field `" ++ tag_attribute ++ "`"))
    ∧ (∀ (m : List (String × Json)) (tagValue : Json),
      lookupField m tag_attribute = some tagValue →
      tagValue.as_str = none →
      run_deserialize dec tag_attribute content_attribute vs fb (Json.obj m) =
        Except.error ("`" ++ tag_attribute ++ "` is not of type `string`"))
    ∧ (∀ (m : List (String × Json)) (tagValue : Json) (s : String),
      lookupField m tag_attribute = some tagValue →
      tagValue.as_str = some s →
      lookupField m content_attribute = none →
      run_deserialize dec tag_attribute content_attribute vs fb (Json.obj m) =
        Except.error ("missing field `" ++ content_attribute ++ "`")) := by
  refine ⟨fun m hm => ?_, fun m tagValue hm hstr => ?_, fun m tagValue s hm hstr hc => ?_⟩
  · have hget : (Json.obj m).get tag_attribute = none := hm
    simp only [run_deserialize, hget]
  · have hget : (Json.obj m).get tag_attribute = some tagValue := hm
    simp only [run_deserialize, hget, hstr]
  · have hget : (Json.obj m).get tag_attribute = some tagValue := hm
    have hgetc : (Json.obj m).get content_attribute = none := hc
    simp only [run_deserialize, hget, hstr, hgetc]

/-- Witness for C7: the three failure modes at concrete objects — no tag
field, a numeric tag field (with the content field also absent, showing the
tag-type check fires first), and a well-formed tag with no content field. -/
theorem sated_C7_witness :
    run_deserialize exampleDecoder "resourceType" "resource" exVariants exFallback
      (Json.obj [("resource", Json.num 1)]) =
        Except.error "missing field `resourceType`"
    ∧ run_deserialize exampleDecoder "resourceType" "resource" exVariants exFallback
      (Json.obj [("resourceType", Json.num 7)]) =
        Except.error "`resourceType` is not of type `string`"
    ∧ run_deserialize exampleDecoder "resourceType" "resource" exVariants exFallback
      (Json.obj [("resourceType", Json.str "Number")]) =
        Except.error "missing field `resource`" :=
  ⟨(sated_C7 exampleDecoder "resourceType" "resource" exVariants exFallback).1
      [("resource", Json.num 1)] rfl,
   (sated_C7 exampleDecoder "resourceType" "resource" exVariants exFallback).2.1
      [("resourceType", Json.num 7)] (Json.num 7) rfl rfl,
   (sated_C7 exampleDecoder "resourceType" "resource" exVariants exFallback).2.2
      [("resourceType", Json.str "Number")] (Json.str "Number") "Number" rfl rfl rfl⟩

/-! Helper lemmas about the extraction loop of `derive_enum`. -/

/-- If every variant's attributes parse cleanly and the first variant whose
fields yield no resolvable path type is `v0`, the extraction loop panics
naming `v0`, whatever the accumulated state. -/
theorem processVariants_error_of_find (v0 : SynVariant) :
    ∀ (vs : List SynVariant) (acc : List EnumVariant) (uv : Option EnumVariant),
      (∀ v ∈ vs, (has_serde_untagged_attribute v.attrs).isOk = true) →
      vs.find? (fun v => (variant_inner_type v.fields).isNone) = some v0 →
      processVariants vs acc uv =
        Except.error ("Unable to resolve inner type of " ++ v0.ident) := by
  intro vs
  induction vs with
  | nil => intro acc uv _ h; simp [List.find?] at h
  | cons v rest ih =>
    intro acc uv hok h
    obtain ⟨b, hb⟩ : ∃ b, has_serde_untagged_attribute v.attrs = Except.ok b := by
      have hv := hok v (List.mem_cons_self v rest)
      cases hx : has_serde_untagged_attribute v.attrs with
      | ok b => exact ⟨b, rfl⟩
      | error e => rw [hx] at hv; exact absurd hv (by simp [Except.isOk, Except.toBool])
    have hrest : ∀ w ∈ rest, (has_serde_untagged_attribute w.attrs).isOk = true :=
      fun w hw => hok w (List.mem_cons_of_mem v hw)
    rw [processVariants]
    simp only [hb]
    cases hv : variant_inner_type v.fields with
    | none =>
      simp only [List.find?_cons, hv, Option.isNone_none, Option.some.injEq] at h
      subst h
      rfl
    | some value =>
      simp only [List.find?_cons, hv, Option.isNone_some] at h
      simp only [hv]
      cases b
      · simp only [Bool.false_eq_true, if_false]
        exact ih (acc ++ [⟨v.ident, value⟩]) uv hrest h
      · simp only [if_true]
        exact ih acc (some ⟨v.ident, value⟩) hrest h

/-- If every variant's attributes parse cleanly as not-untagged and every
variant resolves, the extraction loop succeeds with no untagged variant
recorded. -/
theorem processVariants_ok_none :
    ∀ (vs : List SynVariant) (acc : List EnumVariant),
      (∀ v ∈ vs, has_serde_untagged_attribute v.attrs = Except.ok false) →
      (∀ v ∈ vs, (variant_inner_type v.fields).isSome = true) →
      ∃ tvs, processVariants vs acc none = Except.ok (tvs, none) := by
  intro vs
  induction vs with
  | nil => intro acc _ _; exact ⟨acc, rfl⟩
  | cons v rest ih =>
    intro acc hu hr
    rw [processVariants]
    obtain ⟨t, ht⟩ :=
      Option.isSome_iff_exists.mp (hr v (List.mem_cons_self v rest))
    simp only [ht, hu v (List.mem_cons_self v rest), Bool.false_eq_true, if_false]
    exact ih (acc ++ [⟨v.ident, t⟩])
      (fun w hw => hu w (List.mem_cons_of_mem v hw))
      (fun w hw => hr w (List.mem_cons_of_mem v hw))

/-- Appending an untagged, resolvable variant after any successfully
processed prefix overwrites whatever untagged variant was recorded before:
the last marked variant wins, and the typed list is unchanged. -/
theorem processVariants_append_untagged (u : SynVariant) (t : String)
    (hu : has_serde_untagged_attribute u.attrs = Except.ok true)
    (ht : variant_inner_type u.fields = some t) :
    ∀ (vs : List SynVariant) (acc tvs : List EnumVariant) (uv uv' : Option EnumVariant),
      processVariants vs acc uv = Except.ok (tvs, uv') →
      processVariants (vs ++ [u]) acc uv = Except.ok (tvs, some ⟨u.ident, t⟩) := by
  intro vs
  induction vs with
  | nil =>
    intro acc tvs uv uv' h
    rw [processVariants] at h
    obtain ⟨h1, _⟩ := Prod.mk.injEq .. ▸ Except.ok.injEq .. ▸ h
    subst h1
    simp only [List.nil_append, processVariants, hu, ht, if_true]
  | cons v rest ih =>
    intro acc tvs uv uv' h
    rw [List.cons_append, processVariants]
    rw [processVariants] at h
    cases hb : has_serde_untagged_attribute v.attrs with
    | error e =>
      rw [hb] at h
      exact Except.noConfusion h
    | ok b =>
      simp only [hb] at h ⊢
      cases hv : variant_inner_type v.fields with
      | none =>
        rw [hv] at h
        exact Except.noConfusion h
      | some value =>
        simp only [hv] at h ⊢
        cases b
        · simp only [Bool.false_eq_true, if_false] at h ⊢
          exact ih _ _ _ _ h
        · simp only [if_true] at h ⊢
          exact ih _ _ _ _ h

/-- A schema declaration with two variants marked `#[serde(untagged)]`. -/
def exTwoUntaggedInput : DeriveInput :=
  ⟨"Resource",
   [⟨true, [.tag "resourceType", .content "resource"]⟩],
   .enumData
     [⟨"Number", [], [⟨.path ["u64"]⟩]⟩,
      ⟨"UnknownA", [⟨true, [.untagged]⟩], [⟨.path ["serde_json", "Value"]⟩]⟩,
      ⟨"UnknownB", [⟨true, [.untagged]⟩], [⟨.path ["serde_json", "Value"]⟩]⟩]⟩

/-- A schema declaration with no variant marked `#[serde(untagged)]`. -/
def exNoUntaggedInput : DeriveInput :=
  ⟨"Resource",
   [⟨true, [.tag "resourceType", .content "resource"]⟩],
   .enumData [⟨"Number", [], [⟨.path ["u64"]⟩]⟩]⟩

/-- A schema declaration whose untagged variant has zero fields. -/
def exNoFieldFallbackInput : DeriveInput :=
  ⟨"Resource",
   [⟨true, [.tag "resourceType", .content "resource"]⟩],
   .enumData
     [⟨"Number", [], [⟨.path ["u64"]⟩]⟩,
      ⟨"Unknown", [⟨true, [.untagged]⟩], []⟩]⟩

/-- C5-counterexample: the claim says marking more than one variant as
fallback is a build-time failure, but on the concrete declaration
`exTwoUntaggedInput` — which marks both `UnknownA` and `UnknownB` as
untagged — `derive_enum` succeeds and emits a dispatcher. -/
theorem sated_C5_counterexample : (derive_enum exTwoUntaggedInput).isOk = true := by
  rfl

/-- C5-amended: marking zero variants as fallback is a build-time failure
("No untagged variant specified"); marking more than one is NOT a failure —
the extraction loop silently lets the last marked variant overwrite any
earlier one, so the last marked variant becomes the fallback and the
earlier marked ones are dropped (they do not join the typed list either).
The hypotheses require each variant's attributes to parse cleanly
(`has_serde_untagged_attribute` returning `ok`), since an attribute with an
unconsumed meta value aborts the build earlier with its own panic. -/
theorem sated_C5_amended :
    (∀ (input : DeriveInput) (tag content : String) (vs : List SynVariant),
      get_tag_and_content_attributes input.attrs = Except.ok (tag, content) →
      input.data = SynData.enumData vs →
      vs.isEmpty = false →
      (∀ v ∈ vs, has_serde_untagged_attribute v.attrs = Except.ok false) →
      (∀ v ∈ vs, (variant_inner_type v.fields).isSome = true) →
      derive_enum input =
        Except.error "No untagged variant specified, use serde::Deserialize instead")
    ∧ (∀ (vs : List SynVariant) (acc tvs : List EnumVariant)
        (uv uv' : Option EnumVariant) (u : SynVariant) (t : String),
      processVariants vs acc uv = Except.ok (tvs, uv') →
      has_serde_untagged_attribute u.attrs = Except.ok true →
      variant_inner_type u.fields = some t →
      processVariants (vs ++ [u]) acc uv = Except.ok (tvs, some ⟨u.ident, t⟩)) := by
  constructor
  · intro input tag content vs hTC hData hne hu hr
    obtain ⟨tvs, htvs⟩ := processVariants_ok_none vs [] hu hr
    simp only [derive_enum, hTC, hData, hne, Bool.false_eq_true, if_false, htvs]
  · intro vs acc tvs uv uv' u t h hu ht
    exact processVariants_append_untagged u t hu ht vs acc tvs uv uv' h

/-- Witness for the amended C5: the zero-fallback declaration fails at build
time, and processing `UnknownA` then `UnknownB` (both untagged) records
`UnknownB` as the fallback, dropping `UnknownA`. -/
theorem sated_C5_amended_witness :
    derive_enum exNoUntaggedInput =
      Except.error "No untagged variant specified, use serde::Deserialize instead"
    ∧ processVariants
        [⟨"UnknownA", [⟨true, [.untagged]⟩], [⟨.path ["serde_json", "Value"]⟩]⟩,
         ⟨"UnknownB", [⟨true, [.untagged]⟩], [⟨.path ["serde_json", "Value"]⟩]⟩] [] none =
      Except.ok ([], some ⟨"UnknownB", "serde_json::Value"⟩) :=
  ⟨sated_C5_amended.1 exNoUntaggedInput "resourceType" "resource"
     [⟨"Number", [], [⟨.path ["u64"]⟩]⟩] rfl rfl rfl
     (by intro v hv; rw [List.mem_singleton] at hv; subst hv; rfl) (by decide),
   sated_C5_amended.2
     [⟨"UnknownA", [⟨true, [.untagged]⟩], [⟨.path ["serde_json", "Value"]⟩]⟩]
     [] [] none (some ⟨"UnknownA", "serde_json::Value"⟩)
     ⟨"UnknownB", [⟨true, [.untagged]⟩], [⟨.path ["serde_json", "Value"]⟩]⟩
     "serde_json::Value" rfl rfl rfl⟩

/-- C9: the resolvable-payload-type requirement applies to the fallback
variant too.  On a declaration whose variant attributes all parse cleanly,
if the first variant whose fields yield no resolvable path-typed payload is
marked untagged, `derive_enum` still aborts with the build-time error
naming that variant, even though the fallback never performs a typed
decode. -/
theorem sated_C9 (input : DeriveInput) (tag content : String)
    (vs : List SynVariant) (v0 : SynVariant)
    (hTC : get_tag_and_content_attributes input.attrs = Except.ok (tag, content))
    (hData : input.data = SynData.enumData vs)
    (hAttrs : ∀ v ∈ vs, (has_serde_untagged_attribute v.attrs).isOk = true)
    (hFind : vs.find? (fun v => (variant_inner_type v.fields).isNone) = some v0)
    (hUntagged : has_serde_untagged_attribute v0.attrs = Except.ok true) :
    derive_enum input =
      Except.error ("Unable to resolve inner type of " ++ v0.ident) := by
  have hne : vs.isEmpty = false := by
    cases vs with
    | nil => simp [List.find?] at hFind
    | cons a l => rfl
  simp only [derive_enum, hTC, hData, hne, Bool.false_eq_true, if_false,
    processVariants_error_of_find v0 vs [] none hAttrs hFind]

/-- Witness for C9: the untagged variant `Unknown` of
`exNoFieldFallbackInput` has zero fields, and the build fails naming it. -/
theorem sated_C9_witness :
    derive_enum exNoFieldFallbackInput =
      Except.error "Unable to resolve inner type of Unknown" :=
  sated_C9 exNoFieldFallbackInput "resourceType" "resource"
    [⟨"Number", [], [⟨.path ["u64"]⟩]⟩, ⟨"Unknown", [⟨true, [.untagged]⟩], []⟩]
    ⟨"Unknown", [⟨true, [.untagged]⟩], []⟩ rfl rfl (by decide) rfl rfl

/-- Statement-side characterization of what one field contributes to the
extraction loop: the joined identifier of a path-typed field, nothing for
any other field type. -/
def pathFieldIdent (f : SynField) : Option String :=
  match f.ty with
  | .path segments => some (path_to_ident segments)
  | .other => none

/-- The field loop keeps the identifier of the last path-typed field,
falling back to the initial accumulator when there is none. -/
theorem variant_inner_type_loop_eq :
    ∀ (fields : List SynField) (acc : Option String),
      variant_inner_type_loop acc fields =
        match (fields.filterMap pathFieldIdent).getLast? with
        | some t => some t
        | none => acc := by
  intro fields
  induction fields with
  | nil => intro acc; rfl
  | cons f rest ih =>
    intro acc
    cases hf : f.ty with
    | other =>
      have hpf : pathFieldIdent f = none := by simp [pathFieldIdent, hf]
      rw [variant_inner_type_loop]
      simp only [hf, List.filterMap_cons, hpf]
      exact ih acc
    | path segs =>
      have hpf : pathFieldIdent f = some (path_to_ident segs) := by
        simp [pathFieldIdent, hf]
      rw [variant_inner_type_loop]
      simp only [hf, List.filterMap_cons, hpf]
      rw [ih (some (path_to_ident segs))]
      cases hfm : rest.filterMap pathFieldIdent with
      | nil => rfl
      | cons y l =>
        rw [List.getLast?_cons_cons]
        cases hl : (y :: l).getLast? with
        | none => exact absurd (List.getLast?_eq_none_iff.mp hl) (List.cons_ne_nil y l)
        | some t => rfl

/-- C10: for every variant that declares more than one field, the
extraction loop silently uses the identifier of the last path-typed field
as the variant's payload type (`getLast?` of the path-typed fields),
skipping non-path field types without error; and whenever at least one
path-typed field exists (and the variant's attributes parse cleanly as
not-untagged), the variant is accepted — multi-field variants are not
rejected. -/
theorem sated_C10 (fields : List SynField) (hlen : 1 < fields.length) :
    variant_inner_type fields = (fields.filterMap pathFieldIdent).getLast?
    ∧ ∀ (nm : String) (attrs : List SynAttribute) (t : String),
        (fields.filterMap pathFieldIdent).getLast? = some t →
        has_serde_untagged_attribute attrs = Except.ok false →
        processVariants [⟨nm, attrs, fields⟩] [] none =
          Except.ok ([⟨nm, t⟩], none) := by
  have hmain : variant_inner_type fields = (fields.filterMap pathFieldIdent).getLast? := by
    rw [variant_inner_type, variant_inner_type_loop_eq]
    cases (fields.filterMap pathFieldIdent).getLast? <;> rfl
  refine ⟨hmain, fun nm attrs t ht hu => ?_⟩
  rw [processVariants]
  simp only [hmain, ht, hu, Bool.false_eq_true, if_false]
  rfl

/-- A three-field variant declaration: one non-path field, then path-typed
fields `u64` and `String`. -/
def exMultiFields : List SynField := [⟨.other⟩, ⟨.path ["u64"]⟩, ⟨.path ["String"]⟩]

/-- Witness for C10 on `exMultiFields`: the payload type silently becomes
`String` (the last path-typed field), and the variant is accepted. -/
theorem sated_C10_witness :
    variant_inner_type exMultiFields = some "String"
    ∧ processVariants [⟨"V", [], exMultiFields⟩] [] none =
        Except.ok ([⟨"V", "String"⟩], none) :=
  ⟨((sated_C10 exMultiFields (by decide)).1).trans rfl,
   (sated_C10 exMultiFields (by decide)).2 "V" [] "String" rfl rfl⟩

/-- Over a nonempty list, the last element is never longer than the
`::`-joined string. -/
theorem getLast_length_le_join :
    ∀ (l : List String) (h : l ≠ []), (l.getLast h).length ≤ (join_sep "::" l).length := by
  intro l
  induction l with
  | nil => intro h; exact absurd rfl h
  | cons x rest ih =>
    intro h
    cases rest with
    | nil => exact Nat.le_refl _
    | cons y l2 =>
      rw [List.getLast_cons (List.cons_ne_nil y l2)]
      have step : (join_sep "::" (y :: l2)).length ≤
          (join_sep "::" (x :: y :: l2)).length := by
        have hj : join_sep "::" (x :: y :: l2) = x ++ "::" ++ join_sep "::" (y :: l2) := rfl
        rw [hj, String.length_append, String.length_append]
        omega
      exact Nat.le_trans (ih (List.cons_ne_nil y l2)) step

/-- C8: for every multi-segment (qualified) type path, `path_to_ident`
records the full `::`-joined path — provably different from the final
segment alone — the extraction loop stores exactly that identifier as the
variant's payload type, and the generated arm's text references the full
path. -/
theorem sated_C8 (s t : String) (rest : List String) (enum_name vname : String) :
    path_to_ident (s :: t :: rest) = join_sep "::" (s :: t :: rest)
    ∧ variant_inner_type [⟨SynType.path (s :: t :: rest)⟩] =
        some (path_to_ident (s :: t :: rest))
    ∧ path_to_ident (s :: t :: rest) ≠
        (s :: t :: rest).getLast (List.cons_ne_nil s (t :: rest))
    ∧ ∃ pre post,
        generate_if_branch enum_name ⟨vname, path_to_ident (s :: t :: rest)⟩ =
          pre ++ path_to_ident (s :: t :: rest) ++ post := by
  refine ⟨rfl, rfl, ?_, ?_⟩
  · intro heq
    have hlast := getLast_length_le_join (t :: rest) (List.cons_ne_nil t rest)
    rw [List.getLast_cons (List.cons_ne_nil t rest)] at heq
    have hpti : path_to_ident (s :: t :: rest) =
        s ++ "::" ++ join_sep "::" (t :: rest) := rfl
    rw [hpti] at heq
    have hlen := congrArg String.length heq
    rw [String.length_append, String.length_append] at hlen
    have h2 : ("::" : String).length = 2 := rfl
    rw [h2] at hlen
    omega
  · refine ⟨"\n        if resource_type == \"" ++ vname ++ "\" \x7b\n            let resource = ",
      "::deserialize(resource.to_owned())\n                .map_err(|e| serde::de::Error::custom(e))?;\n            Ok(" ++
        enum_name ++ "::" ++ vname ++ "(resource))\n        \x7d\n", ?_⟩
    simp only [generate_if_branch, String.append_assoc]

/-- The `ResourceStructWithDeserializeWith` declaration of the crate's own
test suite (`tests/mod.rs`): the `Number(u32)` variant carries
`#[serde(deserialize_with = "always_returns_five")]`. -/
def exDeserializeWithInput : DeriveInput :=
  ⟨"ResourceStructWithDeserializeWith",
   [⟨true, [.tag "resourceType", .content "resource"]⟩],
   .enumData
     [⟨"Number", [⟨true, [.deserializeWith "always_returns_five"]⟩], [⟨.path ["u32"]⟩]⟩,
      ⟨"Unknown", [⟨true, [.untagged]⟩], [⟨.path ["serde_json", "Value"]⟩]⟩]⟩

/-- The same declaration with the `deserialize_with` attribute removed. -/
def exPlainNumberInput : DeriveInput :=
  ⟨"ResourceStructWithDeserializeWith",
   [⟨true, [.tag "resourceType", .content "resource"]⟩],
   .enumData
     [⟨"Number", [], [⟨.path ["u32"]⟩]⟩,
      ⟨"Unknown", [⟨true, [.untagged]⟩], [⟨.path ["serde_json", "Value"]⟩]⟩]⟩

/-- C6-code-bug: the claim (backed by the crate's own test
`test_deserialize_with`, which expects the override `always_returns_five`
to be honored and yield `Number(5)`) says a declared `deserialize_with`
override is called in place of the payload type's default decode.  The
macro does not implement this: the `parse_nested_meta` closure of
`has_serde_untagged_attribute` never consumes the meta's value, so on the
test's own declaration the `.unwrap()` panics and the build aborts — no
dispatcher exists at all (first conjunct); with the attribute removed, the
emitted `Number` arm delegates to the default `u32::deserialize` (second
conjunct), whose runtime behavior at the test's input
`{"resourceType":"Number","resource":1}` is the default-decoded payload
`1`, never the override's `5` (third conjunct). -/
theorem sated_C6_code_bug :
    derive_enum exDeserializeWithInput = Except.error unconsumed_meta_error
    ∧ derive_enum exPlainNumberInput =
        Except.ok (output_template "ResourceStructWithDeserializeWith" "resourceType"
          "resource"
          (generate_if_else_tree "ResourceStructWithDeserializeWith"
            [⟨"Number", "u32"⟩] ⟨"Unknown", "serde_json::Value"⟩))
    ∧ run_deserialize (fun _ j => Except.ok j) "resourceType" "resource"
        [⟨"Number", "u32"⟩] ⟨"Unknown", "serde_json::Value"⟩
        (Json.obj [("resourceType", Json.str "Number"), ("resource", Json.num 1)]) =
        Except.ok (.typed "Number" (Json.num 1)) :=
  ⟨rfl, rfl, rfl⟩
